import Mathlib

/-!
Verification development for `src/Task2.py`, a build helper that clones a
repository into the fixed temporary directory `tmp_repo`, validates a
relative source path inside the clone, prunes every sibling of that path,
writes a `version.json` manifest into the source directory, zips the source
directory into the current working directory and finally tears the
workspace down.

The filesystem is modelled as a tree of named entries; the current working
directory is modelled as its root listing.  External effects (the shell
clone call, timestamps) enter the model as parameters.  Console logging is
not modelled.  Relative path strings are split on `/` with empty and `.`
components dropped, exactly the normalisation Python `pathlib` performs;
`..` components and absolute path arguments (outside the domain of every
property below) are treated as literal entry names.
-/

/-- The manifest record built at lines 75-79 of `Task2.py` (`version_data`):
a fixed product name, the caller-supplied version string and the list of
matched file names. -/
structure Manifest where
  name : String
  version : String
  files : List String
  deriving DecidableEq, Repr

/-- Contents of a regular file: raw content from the cloned repository
(abstracted by an identifier), a serialised manifest, or a zip archive. -/
inductive FileData where
  | raw (id : Nat)
  | manifestData (m : Manifest)
  | zipFile
  deriving DecidableEq, Repr

/-- A filesystem node: a regular file or a directory with an ordered
listing of named children (directory-listing order). -/
inductive Node where
  | file (data : FileData)
  | dir (entries : List (String × Node))

/-- A directory listing. -/
abbrev Listing := List (String × Node)

/-- Split a character list on `/`. -/
def splitSlash : List Char → List Char → List (List Char)
  | [], acc => [acc.reverse]
  | c :: rest, acc =>
    if c = '/' then acc.reverse :: splitSlash rest [] else splitSlash rest (c :: acc)

/-- Components of a relative path string, as Python `pathlib` keeps them:
split on `/`, dropping empty components and `.`. -/
def pathParts (s : String) : List String :=
  ((splitSlash s.toList []).map String.mk).filter (fun c => c != "" && c != ".")

/-- Python `Path.suffix` of a base name: the slice from the last dot to the
end, empty when there is no dot, the dot is the first character, or the dot
is the last character.  Used by the filter at line 71. -/
def pySuffix (name : String) : String :=
  let cs := name.toList
  match cs.reverse.findIdx? (fun c => c == '.') with
  | none => ""
  | some k =>
    let i := cs.length - 1 - k
    if 0 < i ∧ i + 1 < cs.length then String.mk (cs.drop i) else ""

/-- Look a name up in a directory listing (`os` resolves each component
against the listing of its parent). -/
def findEntry (es : Listing) (name : String) : Option Node :=
  (es.find? (fun e => e.1 == name)).map (fun e => e.2)

/-- Resolve a component path against a node; `none` when a component is
missing or a non-final component is a regular file. -/
def resolvePath : Node → List String → Option Node
  | n, [] => some n
  | Node.file _, _ :: _ => none
  | Node.dir es, c :: p =>
    match findEntry es c with
    | none => none
    | some n => resolvePath n p

/-- `Path.is_file()` at line 71. -/
def isFileNode : Node → Bool
  | Node.file _ => true
  | Node.dir _ => false

/-- `open(path, "w")` followed by a write: replace the named entry when
present, otherwise append it to the listing. -/
def setEntry (es : Listing) (name : String) (n : Node) : Listing :=
  if es.any (fun e => e.1 == name) then
    es.map (fun e => if e.1 == name then (name, n) else e)
  else
    es ++ [(name, n)]

/-- Replace the listing of the directory reached by a component path.  Only
directory nodes are descended into, mirroring the OS refusing to traverse a
regular file. -/
def updateDirAt (es : Listing) : List String → Listing → Listing
  | [], new => new
  | c :: p, new =>
    es.map (fun e =>
      match e.2 with
      | Node.dir es2 => if e.1 == c then (e.1, Node.dir (updateDirAt es2 p new)) else e
      | _ => e)

/-- The extension allow-list hardcoded at line 71. -/
def allowedExts : List String := [".py", ".js", ".sh"]

/-- Line 71: `[f.name for f in source_dir.iterdir() if f.is_file() and
f.suffix in ['.py', '.js', '.sh']]`. -/
def filesList (es : Listing) : List String :=
  (es.filter (fun e => isFileNode e.2 && allowedExts.contains (pySuffix e.1))).map (fun e => e.1)

/-- Lines 75-79: the `version_data` record. -/
def versionData (version : String) (files : List String) : Manifest :=
  ⟨"hello world", version, files⟩

/-- Lines 82-85: write `version.json` into the source directory's listing,
overwriting any pre-existing entry of that name. -/
def writeVersionJson (es : Listing) (version : String) : Listing :=
  setEntry es "version.json" (Node.file (FileData.manifestData (versionData version (filesList es))))

/-- The two `BuildScriptError` raise sites (lines 26 and 52).  In the
source both are one Python class, distinguished only by message text; the
constructors keep the spec's names for the two kinds. -/
inductive BuildError where
  | commandError (cmd : String)
  | sourceNotFound (rel : String)
  deriving DecidableEq, Repr

/-- Unhandled Python exceptions the pipeline can raise: `shutil.rmtree` or
`iterdir` on a non-directory, `iterdir` on a missing path, and `parts[-1]`
on an empty tuple (line 89). -/
inductive PyError where
  | notADirectory (path : List String)
  | fileNotFound (path : List String)
  | indexError
  deriving DecidableEq, Repr

/-- A failure of one run: a `BuildScriptError` (caught at lines 117-120) or
an unhandled Python exception. -/
inductive RunError where
  | build (e : BuildError)
  | python (e : PyError)
  deriving DecidableEq, Repr

/-- The fixed temporary directory name (line 33). -/
def tmpName : String := "tmp_repo"

/-- The shell command text built at line 45. -/
def cloneCmd (url : String) : String := "git clone " ++ url ++ " " ++ tmpName

/-- Lines 36-41: delete `tmp_repo` if it exists.  `shutil.rmtree` on a
path that exists but is not a directory raises `NotADirectoryError`. -/
def resetStep (cwd : Listing) : Except PyError Listing :=
  match findEntry cwd tmpName with
  | none => Except.ok cwd
  | some (Node.dir _) => Except.ok (cwd.filter (fun e => e.1 != tmpName))
  | some (Node.file _) => Except.error (PyError.notADirectory [tmpName])

/-- `source_dir.exists()` at line 51. -/
def pathExists (repo : Listing) (p : List String) : Bool :=
  (resolvePath (Node.dir repo) p).isSome

/-- `source_dir.is_dir()` at line 51. -/
def pathIsDir (repo : Listing) (p : List String) : Bool :=
  match resolvePath (Node.dir repo) p with
  | some (Node.dir _) => true
  | _ => false

/-- Lines 49-52: resolve the relative path under the clone and raise
`BuildScriptError` when it does not exist or is not a directory. -/
def locateCheck (repo : Listing) (rel : String) : Except BuildError (List String) :=
  if !(pathExists repo (pathParts rel)) || !(pathIsDir repo (pathParts rel)) then
    Except.error (BuildError.sourceNotFound rel)
  else
    Except.ok (pathParts rel)

/-- Lines 57-66: delete every immediate child of `tmp_repo` whose full path
differs from `source_dir`.  `tmp_repo/child == tmp_repo/rel` holds exactly
when the normalised components of `rel` are `[child]`. -/
def prune (es : Listing) (rel : String) : Listing :=
  es.filter (fun e => decide ([e.1] = pathParts rel))

/-- The zip archive produced at line 96 by `shutil.make_archive`: its file
name, the `base_dir` argument (the paths inside the zip are rooted at it)
and the archived tree. -/
structure Archive where
  name : String
  base : String
  root : Node

/-- Outcome of the external `git clone` shell-out at line 45.  On failure
git may or may not leave a partial target directory behind; the `leftover`
parameter records what it left. -/
inductive CloneOutcome where
  | success (tree : Listing)
  | failure (leftover : Option Listing)

/-- Result of one `main` call: the produced archive, or the error that
aborted the remaining steps. -/
inductive MainResult where
  | ok (a : Archive)
  | err (e : RunError)

/-- The working directory with the temporary directory holding `repo`. -/
def withTmp (cwd1 : Listing) (repo : Listing) : Listing :=
  cwd1 ++ [(tmpName, Node.dir repo)]

/-- Lines 31-102: the whole pipeline, returning the outcome and the final
state of the working directory.  Steps in source order: reset, clone,
locate, prune, scan and manifest write, archive-name computation
(`parts[-1]` first, line 89), `make_archive`, teardown. -/
def mainRun (cwd : Listing) (clone : CloneOutcome)
    (repo_url source_rel_path version today : String) : MainResult × Listing :=
  match resetStep cwd with
  | Except.error e => (MainResult.err (RunError.python e), cwd)
  | Except.ok cwd1 =>
    match clone with
    | CloneOutcome.failure left =>
      (MainResult.err (RunError.build (BuildError.commandError (cloneCmd repo_url))),
        match left with
        | none => cwd1
        | some t => withTmp cwd1 t)
    | CloneOutcome.success repo =>
      match locateCheck repo source_rel_path with
      | Except.error e => (MainResult.err (RunError.build e), withTmp cwd1 repo)
      | Except.ok srcParts =>
        match resolvePath (Node.dir (prune repo source_rel_path)) srcParts with
        | none =>
          (MainResult.err (RunError.python (PyError.fileNotFound (tmpName :: srcParts))),
            withTmp cwd1 (prune repo source_rel_path))
        | some (Node.file _) =>
          (MainResult.err (RunError.python (PyError.notADirectory (tmpName :: srcParts))),
            withTmp cwd1 (prune repo source_rel_path))
        | some (Node.dir srcEs) =>
          match (pathParts source_rel_path).getLast? with
          | none =>
            (MainResult.err (RunError.python PyError.indexError),
              withTmp cwd1 (updateDirAt (prune repo source_rel_path) srcParts (writeVersionJson srcEs version)))
          | some last_dir_name =>
            match resolvePath (Node.dir (updateDirAt (prune repo source_rel_path) srcParts (writeVersionJson srcEs version))) srcParts with
            | none =>
              (MainResult.err (RunError.python (PyError.fileNotFound (tmpName :: srcParts))),
                withTmp cwd1 (updateDirAt (prune repo source_rel_path) srcParts (writeVersionJson srcEs version)))
            | some srcNode =>
              (MainResult.ok ⟨last_dir_name ++ today ++ ".zip", source_rel_path, srcNode⟩,
                (setEntry (withTmp cwd1 (updateDirAt (prune repo source_rel_path) srcParts (writeVersionJson srcEs version)))
                    (last_dir_name ++ today ++ ".zip") (Node.file FileData.zipFile)).filter
                  (fun e => e.1 != tmpName))

/-- Outcome of one process invocation (lines 105-120): the usage path, or a
completed `main` call with its swallowed-or-unhandled error. -/
inductive ProcResult where
  | usage (fs : Listing)
  | completed (r : MainResult) (fs : Listing)

/-- Lines 105-120: require exactly three positional arguments, then run
`main`, catching `BuildScriptError` only. -/
def runScript (argv : List String) (clone : CloneOutcome) (cwd : Listing)
    (today : String) : ProcResult :=
  match argv with
  | [repo_url, source_rel_path, version] =>
    ProcResult.completed (mainRun cwd clone repo_url source_rel_path version today).1
      (mainRun cwd clone repo_url source_rel_path version today).2
  | _ => ProcResult.usage cwd

/-- The process exit status: `sys.exit(0)` after usage, normal return (0)
after success or a caught `BuildScriptError`, 1 for an unhandled Python
exception. -/
def exitCode : ProcResult → Nat
  | ProcResult.usage _ => 0
  | ProcResult.completed (MainResult.ok _) _ => 0
  | ProcResult.completed (MainResult.err (RunError.build _)) _ => 0
  | ProcResult.completed (MainResult.err (RunError.python _)) _ => 1

/-- Whether a lookup result is a regular file (the state in which
`shutil.rmtree` at line 38 raises). -/
def isFileEntry : Option Node → Bool
  | some (Node.file _) => true
  | _ => false

theorem findEntry_cons (m : String) (n : Node) (es : Listing) (name : String) :
    findEntry ((m, n) :: es) name = if m = name then some n else findEntry es name := by
  by_cases h : m = name <;> simp [findEntry, List.find?_cons, h]

theorem findEntry_filter_tmp_none (es : Listing) :
    findEntry (es.filter (fun e => e.1 != tmpName)) tmpName = none := by
  induction es with
  | nil => rfl
  | cons e es ih =>
    obtain ⟨m, n⟩ := e
    by_cases h : m = tmpName
    · simp [List.filter_cons, h, ih]
    · simp [List.filter_cons, h, findEntry_cons, ih]

theorem findEntry_filter_ne (es : Listing) (name : String) (h : name ≠ tmpName) :
    findEntry (es.filter (fun e => e.1 != tmpName)) name = findEntry es name := by
  induction es with
  | nil => rfl
  | cons e es ih =>
    obtain ⟨m, n⟩ := e
    by_cases h1 : m = tmpName
    · have hmn : m ≠ name := by rw [h1]; exact fun hc => h hc.symm
      simp [List.filter_cons, h1, ih, findEntry_cons, hmn]
      exact (if_neg (fun hc : tmpName = name => h hc.symm)).symm
    · simp [List.filter_cons, h1, findEntry_cons, ih]

theorem findEntry_append_none (es : Listing) (name : String) (x : Node)
    (h : findEntry es name = none) :
    findEntry (es ++ [(name, x)]) name = some x := by
  induction es with
  | nil => simp [findEntry_cons]
  | cons e es ih =>
    obtain ⟨m, n⟩ := e
    by_cases h1 : m = name
    · rw [findEntry_cons, if_pos h1] at h; cases h
    · rw [findEntry_cons, if_neg h1] at h
      rw [List.cons_append, findEntry_cons, if_neg h1]
      exact ih h

theorem findEntry_map_replace (es : Listing) (name : String) (x : Node)
    (h : es.any (fun e => e.1 == name) = true) :
    findEntry (es.map (fun e => if e.1 == name then (name, x) else e)) name = some x := by
  induction es with
  | nil => cases h
  | cons e es ih =>
    obtain ⟨m, n⟩ := e
    by_cases h1 : m = name
    · simp [h1, findEntry_cons]
    · have hm : (m == name) = false := by simp [h1]
      rw [List.any_cons, hm, Bool.false_or] at h
      simp only [List.map_cons]
      rw [show (if ((m, n).1 == name) = true then (name, x) else (m, n)) = (m, n) by
        simp [hm]]
      rw [findEntry_cons, if_neg h1]
      exact ih h

theorem findEntry_of_any_false (es : Listing) (name : String)
    (h : es.any (fun e => e.1 == name) = false) :
    findEntry es name = none := by
  induction es with
  | nil => rfl
  | cons e es ih =>
    obtain ⟨m, n⟩ := e
    rw [List.any_cons, Bool.or_eq_false_iff] at h
    have h1 : m ≠ name := by
      intro hc; rw [hc] at h; simp at h
    rw [findEntry_cons, if_neg h1]
    exact ih h.2

theorem findEntry_setEntry_self (es : Listing) (name : String) (x : Node) :
    findEntry (setEntry es name x) name = some x := by
  by_cases h : es.any (fun e => e.1 == name) = true
  · rw [setEntry, if_pos h]
    exact findEntry_map_replace es name x h
  · rw [setEntry, if_neg h]
    exact findEntry_append_none es name x
      (findEntry_of_any_false es name (Bool.eq_false_iff.mpr h))

theorem mem_filesList (x : String) (es : Listing) :
    x ∈ filesList es ↔ ∃ d, (x, Node.file d) ∈ es ∧ pySuffix x ∈ allowedExts := by
  simp only [filesList, List.mem_map, List.mem_filter]
  constructor
  · rintro ⟨⟨name, node⟩, ⟨hmem, hcond⟩, rfl⟩
    cases node with
    | file d =>
      refine ⟨d, hmem, ?_⟩
      rw [Bool.and_eq_true] at hcond
      exact List.elem_iff.mp hcond.2
    | dir _ => simp [isFileNode] at hcond
  · rintro ⟨d, hmem, hsuf⟩
    exact ⟨(x, Node.file d), ⟨hmem, by simp [isFileNode, List.elem_iff, hsuf]⟩, rfl⟩

theorem filesList_sublist (es : Listing) :
    (filesList es).Sublist (es.map Prod.fst) := by
  have h1 : (es.filter (fun e => isFileNode e.2 && allowedExts.contains (pySuffix e.1))).Sublist es :=
    List.filter_sublist es
  simpa [filesList] using h1.map Prod.fst

theorem locateCheck_ok_eq (repo : Listing) (rel : String) (p : List String)
    (h : locateCheck repo rel = Except.ok p) :
    p = pathParts rel ∧ ∃ es2, resolvePath (Node.dir repo) (pathParts rel) = some (Node.dir es2) := by
  rw [locateCheck] at h
  by_cases hc : (!(pathExists repo (pathParts rel)) || !(pathIsDir repo (pathParts rel))) = true
  · rw [if_pos hc] at h; cases h
  · rw [if_neg hc] at h
    cases h
    rw [Bool.or_eq_true, not_or] at hc
    have hdir : pathIsDir repo (pathParts rel) = true := by simpa using hc.2
    refine ⟨rfl, ?_⟩
    simp only [pathIsDir] at hdir
    rcases hr : resolvePath (Node.dir repo) (pathParts rel) with _ | n
    · simp [hr] at hdir
    · cases n with
      | file d => simp [hr] at hdir
      | dir es2 => exact ⟨es2, rfl⟩

theorem resetStep_ok_no_tmp (cwd cwd1 : Listing)
    (h : resetStep cwd = Except.ok cwd1) : findEntry cwd1 tmpName = none := by
  rw [resetStep] at h
  rcases hf : findEntry cwd tmpName with _ | n
  · rw [hf] at h; cases h; exact hf
  · cases n with
    | file d => rw [hf] at h; cases h
    | dir es => rw [hf] at h; cases h; exact findEntry_filter_tmp_none cwd

theorem findEntry_updateDirAt_cons (es : Listing) (c : String) (p : List String)
    (new es2 : Listing) (h : findEntry es c = some (Node.dir es2)) :
    findEntry (updateDirAt es (c :: p) new) c = some (Node.dir (updateDirAt es2 p new)) := by
  induction es with
  | nil => cases h
  | cons e es ih =>
    obtain ⟨m, n⟩ := e
    by_cases h1 : m = c
    · rw [findEntry_cons, if_pos h1] at h
      cases h
      subst h1
      simp [updateDirAt, findEntry_cons]
    · rw [findEntry_cons, if_neg h1] at h
      have hm : (m == c) = false := by simp [h1]
      have hh := ih h
      simp only [updateDirAt] at hh ⊢
      cases n with
      | file d => simpa [findEntry_cons, h1] using hh
      | dir es3 => simpa [findEntry_cons, h1, hm] using hh

theorem resolvePath_updateDirAt (p : List String) (es old new : Listing)
    (h : resolvePath (Node.dir es) p = some (Node.dir old)) :
    resolvePath (Node.dir (updateDirAt es p new)) p = some (Node.dir new) := by
  induction p generalizing es old with
  | nil => rfl
  | cons c p ih =>
    rw [resolvePath] at h
    rcases hf : findEntry es c with _ | n
    · rw [hf] at h; cases h
    · rw [hf] at h
      cases n with
      | file d =>
        cases p with
        | nil => simp [resolvePath] at h
        | cons c2 p2 => simp [resolvePath] at h
      | dir es2 =>
        have hup := findEntry_updateDirAt_cons es c p new es2 hf
        rw [resolvePath, hup]
        exact ih es2 old h

theorem prune_drop_all (es : Listing) (rel name : String)
    (hrel : pathParts rel = [name]) (h : name ∉ es.map Prod.fst) :
    prune es rel = [] := by
  induction es with
  | nil => rfl
  | cons e es ih =>
    obtain ⟨m, n⟩ := e
    rw [List.map_cons, List.mem_cons, not_or] at h
    have hm : m ≠ name := fun hc => h.1 hc.symm
    rw [prune, List.filter_cons]
    rw [show (decide ([((m, n) : String × Node).1] = pathParts rel)) = false by
      simp [hrel, hm]]
    exact ih h.2

theorem prune_keeps_unique (es : Listing) (rel name : String) (n : Node)
    (hrel : pathParts rel = [name]) (hnd : (es.map Prod.fst).Nodup)
    (hmem : (name, n) ∈ es) :
    prune es rel = [(name, n)] := by
  induction es with
  | nil => cases hmem
  | cons e es ih =>
    obtain ⟨m, n2⟩ := e
    rw [List.map_cons, List.nodup_cons] at hnd
    rcases List.mem_cons.mp hmem with hhead | htail
    · cases hhead
      rw [prune, List.filter_cons]
      rw [show (decide ([((name, n) : String × Node).1] = pathParts rel)) = true by
        simp [hrel]]
      rw [if_pos rfl]
      have hdrop := prune_drop_all es rel name hrel hnd.1
      rw [prune] at hdrop
      rw [hdrop]
    · have hm : m ≠ name := by
        intro hc
        exact hnd.1 (hc ▸ List.mem_map.mpr ⟨(name, n), htail, rfl⟩)
      rw [prune, List.filter_cons]
      rw [show (decide ([((m, n2) : String × Node).1] = pathParts rel)) = false by
        simp [hrel, hm]]
      exact ih hnd.2 htail

theorem zip_name_ne_tmpName (s t : String) : s ++ t ++ ".zip" ≠ tmpName := by
  obtain ⟨l1⟩ := s
  obtain ⟨l2⟩ := t
  intro h
  have hd : (l1 ++ l2) ++ ['.', 'z', 'i', 'p'] = tmpName.data := congrArg String.data h
  have h1 := congrArg List.getLast? hd
  simp [tmpName] at h1

/-- C3: for every source directory listing and version string, the manifest
record is exactly `name = "hello world"`, `version` the caller's string
verbatim, and `files` the base names of the listing's immediate children
that are regular files with suffix `.py`, `.js` or `.sh` (case-sensitive),
in directory-listing order (a sublist of the listing's names); the record
is written into the directory as `version.json`. -/
theorem manifest_builder_correct (es : Listing) (v : String) :
    (versionData v (filesList es)).name = "hello world" ∧
    (versionData v (filesList es)).version = v ∧
    (∀ x, x ∈ (versionData v (filesList es)).files ↔
      ∃ d, (x, Node.file d) ∈ es ∧ pySuffix x ∈ allowedExts) ∧
    ((versionData v (filesList es)).files).Sublist (es.map Prod.fst) ∧
    findEntry (writeVersionJson es v) "version.json" =
      some (Node.file (FileData.manifestData (versionData v (filesList es)))) := by
  refine ⟨rfl, rfl, ?_, ?_, ?_⟩
  · intro x; exact mem_filesList x es
  · exact filesList_sublist es
  · exact findEntry_setEntry_self es "version.json" _

/-- C10: the `files` array of the manifest never contains `"version.json"`,
whatever the source directory held before the write: the scan only matches
the `.py`/`.js`/`.sh` suffixes (the suffix of `version.json` is `.json`)
and runs before the manifest file is created. -/
theorem version_json_never_in_files (es : Listing) (v : String) :
    "version.json" ∉ (versionData v (filesList es)).files := by
  intro hmem
  obtain ⟨d, _, hsuf⟩ := (mem_filesList "version.json" es).mp hmem
  rw [show pySuffix "version.json" = ".json" from rfl] at hsuf
  simp [allowedExts] at hsuf

/-- C6: `locate` fails with `SourceNotFoundError` exactly when the relative
path resolved under the temporary path is missing or is a regular file;
when it resolves to a directory, it returns that path without error. -/
theorem locate_error_iff (repo : Listing) (rel : String) :
    (locateCheck repo rel = Except.error (BuildError.sourceNotFound rel) ↔
      resolvePath (Node.dir repo) (pathParts rel) = none ∨
        ∃ d, resolvePath (Node.dir repo) (pathParts rel) = some (Node.file d)) ∧
    (∀ p, locateCheck repo rel = Except.ok p →
      p = pathParts rel ∧
        ∃ es2, resolvePath (Node.dir repo) (pathParts rel) = some (Node.dir es2)) := by
  constructor
  · rcases hr : resolvePath (Node.dir repo) (pathParts rel) with _ | n
    · simp [locateCheck, pathExists, pathIsDir, hr]
    · cases n with
      | file d => simp [locateCheck, pathExists, pathIsDir, hr]
      | dir es2 => simp [locateCheck, pathExists, pathIsDir, hr]
  · intro p hp
    exact locateCheck_ok_eq repo rel p hp

/-- Witness for C6: on a clone holding the directory `app`, `locate "app"`
succeeds and the resolved path is a directory. -/
theorem locate_error_iff_witness :
    locateCheck [("app", Node.dir [])] "app" = Except.ok ["app"] ∧
      (["app"] = pathParts "app" ∧
        ∃ es2, resolvePath (Node.dir [("app", Node.dir [])]) (pathParts "app") =
          some (Node.dir es2)) :=
  ⟨rfl, (locate_error_iff [("app", Node.dir [])] "app").2 ["app"] rfl⟩

/-- C7: with any argument count other than three the script prints usage,
mutates nothing (the working directory listing is returned unchanged) and
exits with status 0. -/
theorem usage_on_wrong_arg_count (argv : List String) (clone : CloneOutcome)
    (cwd : Listing) (today : String) (h : argv.length ≠ 3) :
    runScript argv clone cwd today = ProcResult.usage cwd ∧
      exitCode (runScript argv clone cwd today) = 0 := by
  rcases argv with _ | ⟨a, _ | ⟨b, _ | ⟨c, _ | ⟨d, t⟩⟩⟩⟩
  · exact ⟨rfl, rfl⟩
  · exact ⟨rfl, rfl⟩
  · exact ⟨rfl, rfl⟩
  · exact absurd rfl h
  · exact ⟨rfl, rfl⟩

/-- Witness for C7: one argument yields the usage path with exit status 0
and an untouched filesystem. -/
theorem usage_on_wrong_arg_count_witness :
    runScript ["https://example/repo.git"] (CloneOutcome.failure none)
        [("keep.txt", Node.file (FileData.raw 7))] "20250101" =
      ProcResult.usage [("keep.txt", Node.file (FileData.raw 7))] ∧
    exitCode (runScript ["https://example/repo.git"] (CloneOutcome.failure none)
        [("keep.txt", Node.file (FileData.raw 7))] "20250101") = 0 :=
  usage_on_wrong_arg_count ["https://example/repo.git"] (CloneOutcome.failure none)
    [("keep.txt", Node.file (FileData.raw 7))] "20250101" (by decide)

/-- Counterexample for C2: with the located source directory `src/app`
(which exists: `locate` succeeds), pruning compares each immediate child of
`tmp_repo` against the full path `tmp_repo/src/app`; the child `src` is not
equal to it and is deleted, so nothing remains and the keep directory
itself is destroyed. -/
theorem prune_deletes_nested_keep :
    locateCheck [("src", Node.dir [("app", Node.dir [])])] "src/app" =
        Except.ok ["src", "app"] ∧
      prune [("src", Node.dir [("app", Node.dir [])])] "src/app" = [] ∧
      resolvePath (Node.dir (prune [("src", Node.dir [("app", Node.dir [])])] "src/app"))
        ["src", "app"] = none :=
  ⟨rfl, rfl, rfl⟩

/-- C2 (amended): when the keep path is an immediate child of the temporary
directory (the relative path has exactly one component), pruning leaves
exactly the keep entry: every sibling is deleted and the keep entry itself
survives.  Entry names are assumed distinct, as on a real filesystem. -/
theorem prune_keeps_immediate_child (es : Listing) (rel name : String) (n : Node)
    (hrel : pathParts rel = [name]) (hnd : (es.map Prod.fst).Nodup)
    (hmem : (name, n) ∈ es) :
    prune es rel = [(name, n)] :=
  prune_keeps_unique es rel name n hrel hnd hmem

/-- Witness for C2 (amended): with children `app` and `junk`, pruning with
the relative path `app` keeps exactly the `app` directory. -/
theorem prune_keeps_immediate_child_witness :
    prune [("app", Node.dir [("m.py", Node.file (FileData.raw 0))]),
        ("junk", Node.file (FileData.raw 1))] "app" =
      [("app", Node.dir [("m.py", Node.file (FileData.raw 0))])] :=
  prune_keeps_immediate_child
    [("app", Node.dir [("m.py", Node.file (FileData.raw 0))]),
      ("junk", Node.file (FileData.raw 1))]
    "app" "app" (Node.dir [("m.py", Node.file (FileData.raw 0))])
    rfl (by decide) (List.mem_cons_self _ _)

/-- Counterexample for C8: when the fixed temporary path exists as a
regular file, the reset does not delete it: `shutil.rmtree` raises
`NotADirectoryError`, the run aborts outside the script's own error
handling and the path is still present. -/
theorem reset_fails_on_file_at_tmp :
    resetStep [("tmp_repo", Node.file (FileData.raw 0))] =
        Except.error (PyError.notADirectory ["tmp_repo"]) ∧
      mainRun [("tmp_repo", Node.file (FileData.raw 0))] (CloneOutcome.failure none)
          "https://example/repo.git" "app" "1.0" "20250101" =
        (MainResult.err (RunError.python (PyError.notADirectory ["tmp_repo"])),
          [("tmp_repo", Node.file (FileData.raw 0))]) :=
  ⟨rfl, rfl⟩

/-- C8 (amended): whenever the fixed temporary path is absent or is a
directory (however populated), the reset succeeds and leaves the path
absent; when the path was already absent the reset is a no-op, and a
second reset is always a no-op (idempotence).  A regular file at the path
is the one state in which the reset fails. -/
theorem reset_leaves_tmp_absent (cwd : Listing)
    (h : isFileEntry (findEntry cwd tmpName) = false) :
    ∃ cwd1, resetStep cwd = Except.ok cwd1 ∧ findEntry cwd1 tmpName = none ∧
      resetStep cwd1 = Except.ok cwd1 ∧
      (findEntry cwd tmpName = none → cwd1 = cwd) := by
  rcases hf : findEntry cwd tmpName with _ | n
  · refine ⟨cwd, ?_, hf, ?_, fun _ => rfl⟩
    · rw [resetStep, hf]
    · rw [resetStep, hf]
  · cases n with
    | file d => rw [hf] at h; simp [isFileEntry] at h
    | dir es =>
      refine ⟨cwd.filter (fun e => e.1 != tmpName), ?_, findEntry_filter_tmp_none cwd, ?_, ?_⟩
      · rw [resetStep, hf]
      · rw [resetStep, findEntry_filter_tmp_none cwd]
      · intro hn; cases hn

/-- Witness for C8 (amended): resetting a populated `tmp_repo` directory
leaves the path absent. -/
theorem reset_leaves_tmp_absent_witness :
    ∃ cwd1,
      resetStep [("tmp_repo", Node.dir [("x", Node.file (FileData.raw 0))])] =
          Except.ok cwd1 ∧
        findEntry cwd1 tmpName = none ∧
        resetStep cwd1 = Except.ok cwd1 ∧
        (findEntry [("tmp_repo", Node.dir [("x", Node.file (FileData.raw 0))])] tmpName =
            none → cwd1 = [("tmp_repo", Node.dir [("x", Node.file (FileData.raw 0))])]) :=
  reset_leaves_tmp_absent [("tmp_repo", Node.dir [("x", Node.file (FileData.raw 0))])] rfl

/-- C1 (failing evaluation): the spec's end-to-end scenario.  With
`repoUrl = "https://example/repo.git"`, `relativePath = "src/app"`,
`version = "1.2.3"` and a clone whose `src/app` holds exactly `run.py` and
`notes.md`, `locate` succeeds, but pruning deletes `tmp_repo/src` (it is
not path-equal to `tmp_repo/src/app`), the file scan of the now-missing
source directory raises an unhandled `FileNotFoundError`, the process
exits with status 1, and no archive is produced: the final filesystem is
an empty `tmp_repo` left behind. -/
theorem end_to_end_nested_path_crashes :
    locateCheck
        [(".git", Node.dir []),
          ("src", Node.dir [("app", Node.dir [("run.py", Node.file (FileData.raw 0)),
            ("notes.md", Node.file (FileData.raw 1))])])] "src/app" =
      Except.ok ["src", "app"] ∧
    runScript ["https://example/repo.git", "src/app", "1.2.3"]
        (CloneOutcome.success
          [(".git", Node.dir []),
            ("src", Node.dir [("app", Node.dir [("run.py", Node.file (FileData.raw 0)),
              ("notes.md", Node.file (FileData.raw 1))])])])
        [] "20251012" =
      ProcResult.completed
        (MainResult.err (RunError.python (PyError.fileNotFound ["tmp_repo", "src", "app"])))
        [("tmp_repo", Node.dir [])] ∧
    exitCode (runScript ["https://example/repo.git", "src/app", "1.2.3"]
        (CloneOutcome.success
          [(".git", Node.dir []),
            ("src", Node.dir [("app", Node.dir [("run.py", Node.file (FileData.raw 0)),
              ("notes.md", Node.file (FileData.raw 1))])])])
        [] "20251012") = 1 :=
  ⟨rfl, rfl, rfl⟩

/-- C9: with the relative source path `"."` the resolved source directory
is the workspace itself, so `locate` succeeds; pruning then deletes the
entire cloned content (no child is path-equal to `tmp_repo` itself), the
manifest is written into the emptied workspace, and computing the archive
base name from the empty `parts` tuple raises an unhandled `IndexError`:
the process ends with exit status 1, outside the script's own error
handling. -/
theorem dot_relative_path_index_error :
    locateCheck [(".git", Node.dir []), ("lib", Node.dir [("a.py", Node.file (FileData.raw 0))])]
        "." = Except.ok [] ∧
    prune [(".git", Node.dir []), ("lib", Node.dir [("a.py", Node.file (FileData.raw 0))])]
        "." = [] ∧
    runScript ["https://example/x.git", ".", "0.1"]
        (CloneOutcome.success
          [(".git", Node.dir []), ("lib", Node.dir [("a.py", Node.file (FileData.raw 0))])])
        [] "20250102" =
      ProcResult.completed (MainResult.err (RunError.python PyError.indexError))
        [("tmp_repo", Node.dir [("version.json",
          Node.file (FileData.manifestData ⟨"hello world", "0.1", []⟩))])] ∧
    exitCode (runScript ["https://example/x.git", ".", "0.1"]
        (CloneOutcome.success
          [(".git", Node.dir []), ("lib", Node.dir [("a.py", Node.file (FileData.raw 0))])])
        [] "20250102") = 1 :=
  ⟨rfl, rfl, rfl, rfl⟩

theorem findEntry_snoc_ne_none (es : Listing) (name : String) (x : Node) :
    findEntry (es ++ [(name, x)]) name ≠ none := by
  induction es with
  | nil => simp [findEntry_cons]
  | cons e es ih =>
    obtain ⟨m, n⟩ := e
    by_cases h1 : m = name
    · rw [List.cons_append, findEntry_cons, if_pos h1]; simp
    · rw [List.cons_append, findEntry_cons, if_neg h1]; exact ih

/-- C5: whenever `main` aborts with a `BuildScriptError` (a command failure
or `SourceNotFoundError`), the error is caught once at the top level and
swallowed: the process result carries exactly the state `main` left (no
further pipeline step and no cleanup runs), the exit status is 0, and for a
`SourceNotFoundError` the temporary directory is still present in the
left-behind state. -/
theorem build_error_swallowed (cwd : Listing) (clone : CloneOutcome)
    (url rel ver today : String) (e : BuildError) (fs : Listing)
    (h : mainRun cwd clone url rel ver today = (MainResult.err (RunError.build e), fs)) :
    runScript [url, rel, ver] clone cwd today =
        ProcResult.completed (MainResult.err (RunError.build e)) fs ∧
      exitCode (runScript [url, rel, ver] clone cwd today) = 0 ∧
      (∀ s, e = BuildError.sourceNotFound s → findEntry fs tmpName ≠ none) := by
  refine ⟨?_, ?_, ?_⟩
  · simp only [runScript, h]
  · simp only [runScript, h, exitCode]
  · intro s hs
    subst hs
    unfold mainRun at h
    split at h
    · simp at h
    · split at h
      · simp at h
      · split at h
        · have h2 : withTmp _ _ = fs := congrArg Prod.snd h
          rw [← h2, withTmp]
          exact findEntry_snoc_ne_none _ tmpName _
        · split at h
          · simp at h
          · simp at h
          · split at h
            · simp at h
            · split at h
              · simp at h
              · simp at h

/-- Witness for C5: a clone without the requested `app` directory makes
`locate` raise `SourceNotFoundError`; the process exits 0 and `tmp_repo`
(with the clone inside) is left behind. -/
theorem build_error_swallowed_witness :
    runScript ["https://example/repo.git", "app", "1.0"]
        (CloneOutcome.success [("other", Node.dir [])]) [] "20250101" =
      ProcResult.completed
        (MainResult.err (RunError.build (BuildError.sourceNotFound "app")))
        [("tmp_repo", Node.dir [("other", Node.dir [])])] ∧
    exitCode (runScript ["https://example/repo.git", "app", "1.0"]
        (CloneOutcome.success [("other", Node.dir [])]) [] "20250101") = 0 ∧
    (∀ s, BuildError.sourceNotFound "app" = BuildError.sourceNotFound s →
      findEntry [("tmp_repo", Node.dir [("other", Node.dir [])])] tmpName ≠ none) :=
  build_error_swallowed [] (CloneOutcome.success [("other", Node.dir [])])
    "https://example/repo.git" "app" "1.0" "20250101"
    (BuildError.sourceNotFound "app")
    [("tmp_repo", Node.dir [("other", Node.dir [])])] rfl

/-- Counterexample for C4: with the relative source path `"."` (whose
normalised `parts` tuple is empty) the archiver is never reached: the run
dies with an unhandled `IndexError` computing the base name, and the final
filesystem contains no archive at all (only the abandoned `tmp_repo`). -/
theorem archive_claim_fails_on_dot :
    pathParts "." = [] ∧
    mainRun [] (CloneOutcome.success [("b.py", Node.file (FileData.raw 0))])
        "https://example/y.git" "." "2.2" "20250103" =
      (MainResult.err (RunError.python PyError.indexError),
        [("tmp_repo", Node.dir [("version.json",
          Node.file (FileData.manifestData ⟨"hello world", "2.2", []⟩))])]) :=
  ⟨rfl, rfl⟩

/-- C4 (amended): for every run whose relative source path has at least one
component — equivalently, every run that completes — the archive name is
the path's last component concatenated with the date and `".zip"`, the
archive is rooted at the relative source path (`base_dir`), its tree is the
source directory including the just-written `version.json` manifest, and
the archive file sits in the working directory, where the temporary
directory is gone after teardown. -/
theorem archive_shape (cwd : Listing) (clone : CloneOutcome)
    (url rel ver today : String) (a : Archive) (fs : Listing)
    (h : mainRun cwd clone url rel ver today = (MainResult.ok a, fs)) :
    ∃ seg srcEs,
      (pathParts rel).getLast? = some seg ∧
      a.name = seg ++ today ++ ".zip" ∧
      a.base = rel ∧
      a.root = Node.dir (writeVersionJson srcEs ver) ∧
      findEntry (writeVersionJson srcEs ver) "version.json" =
        some (Node.file (FileData.manifestData (versionData ver (filesList srcEs)))) ∧
      findEntry fs a.name = some (Node.file FileData.zipFile) ∧
      findEntry fs tmpName = none := by
  unfold mainRun at h
  split at h
  · simp at h
  · split at h
    · simp at h
    · split at h
      · simp at h
      · split at h
        · simp at h
        · simp at h
        · split at h
          · simp at h
          · split at h
            · simp at h
            · rename_i x4 cwd1 hres0 cl repo x3 srcParts hloc x2 srcEs hres1 x1 seg hlast x0 srcNode hres2
              obtain ⟨h1, h2⟩ := Prod.mk.injEq _ _ _ _ |>.mp h
              cases h1
              obtain ⟨hp, hdd⟩ := locateCheck_ok_eq repo rel srcParts hloc
              subst hp
              have hroot : srcNode = Node.dir (writeVersionJson srcEs ver) := by
                have hh := resolvePath_updateDirAt (pathParts rel) (prune repo rel) srcEs
                  (writeVersionJson srcEs ver) hres1
                rw [hh] at hres2
                exact (Option.some.injEq _ _ |>.mp hres2).symm
              refine ⟨seg, srcEs, hlast, rfl, rfl, hroot, findEntry_setEntry_self _ _ _, ?_, ?_⟩
              · rw [← h2]
                rw [findEntry_filter_ne _ _ (zip_name_ne_tmpName seg today)]
                exact findEntry_setEntry_self _ _ _
              · rw [← h2]
                exact findEntry_filter_tmp_none _

/-- Witness for C4 (amended): a successful run over `app` containing
`main.py` and `doc.txt`, archiving on 2025-10-12. -/
theorem archive_shape_witness :
    ∃ seg srcEs,
      (pathParts "app").getLast? = some seg ∧
      (Archive.mk "app20251012.zip" "app"
          (Node.dir [("main.py", Node.file (FileData.raw 0)),
            ("doc.txt", Node.file (FileData.raw 1)),
            ("version.json", Node.file (FileData.manifestData
              ⟨"hello world", "2.0", ["main.py"]⟩))])).name = seg ++ "20251012" ++ ".zip" ∧
      (Archive.mk "app20251012.zip" "app"
          (Node.dir [("main.py", Node.file (FileData.raw 0)),
            ("doc.txt", Node.file (FileData.raw 1)),
            ("version.json", Node.file (FileData.manifestData
              ⟨"hello world", "2.0", ["main.py"]⟩))])).base = "app" ∧
      (Archive.mk "app20251012.zip" "app"
          (Node.dir [("main.py", Node.file (FileData.raw 0)),
            ("doc.txt", Node.file (FileData.raw 1)),
            ("version.json", Node.file (FileData.manifestData
              ⟨"hello world", "2.0", ["main.py"]⟩))])).root =
        Node.dir (writeVersionJson srcEs "2.0") ∧
      findEntry (writeVersionJson srcEs "2.0") "version.json" =
        some (Node.file (FileData.manifestData (versionData "2.0" (filesList srcEs)))) ∧
      findEntry [("app20251012.zip", Node.file FileData.zipFile)]
          (Archive.mk "app20251012.zip" "app"
            (Node.dir [("main.py", Node.file (FileData.raw 0)),
              ("doc.txt", Node.file (FileData.raw 1)),
              ("version.json", Node.file (FileData.manifestData
                ⟨"hello world", "2.0", ["main.py"]⟩))])).name =
        some (Node.file FileData.zipFile) ∧
      findEntry [("app20251012.zip", Node.file FileData.zipFile)] tmpName = none :=
  archive_shape []
    (CloneOutcome.success [(".git", Node.dir []),
      ("app", Node.dir [("main.py", Node.file (FileData.raw 0)),
        ("doc.txt", Node.file (FileData.raw 1))])])
    "https://example/r.git" "app" "2.0" "20251012"
    (Archive.mk "app20251012.zip" "app"
      (Node.dir [("main.py", Node.file (FileData.raw 0)),
        ("doc.txt", Node.file (FileData.raw 1)),
        ("version.json", Node.file (FileData.manifestData
          ⟨"hello world", "2.0", ["main.py"]⟩))]))
    [("app20251012.zip", Node.file FileData.zipFile)] rfl

/-- Witness for C3: a concrete listing with `a.py`, `b.txt`, `c.sh`,
`d.js` and `README`. -/
theorem manifest_builder_correct_witness :
    (versionData "3.1.4" (filesList [("a.py", Node.file (FileData.raw 0)),
        ("b.txt", Node.file (FileData.raw 1)), ("c.sh", Node.file (FileData.raw 2)),
        ("d.js", Node.file (FileData.raw 3)), ("README", Node.file (FileData.raw 4))])).name =
      "hello world" ∧
    (versionData "3.1.4" (filesList [("a.py", Node.file (FileData.raw 0)),
        ("b.txt", Node.file (FileData.raw 1)), ("c.sh", Node.file (FileData.raw 2)),
        ("d.js", Node.file (FileData.raw 3)), ("README", Node.file (FileData.raw 4))])).version =
      "3.1.4" ∧
    (versionData "3.1.4" (filesList [("a.py", Node.file (FileData.raw 0)),
        ("b.txt", Node.file (FileData.raw 1)), ("c.sh", Node.file (FileData.raw 2)),
        ("d.js", Node.file (FileData.raw 3)), ("README", Node.file (FileData.raw 4))])).files =
      ["a.py", "c.sh", "d.js"] :=
  ⟨(manifest_builder_correct [("a.py", Node.file (FileData.raw 0)),
      ("b.txt", Node.file (FileData.raw 1)), ("c.sh", Node.file (FileData.raw 2)),
      ("d.js", Node.file (FileData.raw 3)), ("README", Node.file (FileData.raw 4))] "3.1.4").1,
    (manifest_builder_correct [("a.py", Node.file (FileData.raw 0)),
      ("b.txt", Node.file (FileData.raw 1)), ("c.sh", Node.file (FileData.raw 2)),
      ("d.js", Node.file (FileData.raw 3)), ("README", Node.file (FileData.raw 4))] "3.1.4").2.1,
    rfl⟩

/-- Witness for C10: even when the cloned source directory already holds a
`version.json`, the scanned list omits it. -/
theorem version_json_never_in_files_witness :
    "version.json" ∉ (versionData "1.0" (filesList
      [("version.json", Node.file (FileData.raw 0)),
        ("a.py", Node.file (FileData.raw 1))])).files :=
  version_json_never_in_files
    [("version.json", Node.file (FileData.raw 0)), ("a.py", Node.file (FileData.raw 1))] "1.0"
